import Mathlib

/-!
Verification of the DuoAPI_Interaction repository against its specification.

The Python sources are shallowly embedded as Lean definitions:

* `DuoCleanup` models `scripts/duo_student_cleanup.py`: the classifier
  functions `is_student_account` / `is_directory_managed` and the
  per-username processing loop of `main` (fetch -> classify -> act),
  with the remote calls, prompts and sleeps of a run recorded as an
  explicit event trace.  The character class of the stray-pattern
  regex's `\d` (every Unicode decimal digit, category Nd, whose extent
  depends on the interpreter's Unicode tables) is a parameter of the
  classifier, instantiated at `Char.isDigit` for ASCII inputs.
* `DuoRetry` models `scripts/duo_api_with_retry.py`: the
  `exponential_backoff_retry` decorator, the HTTP error taxonomy of
  `_handle_response_errors`, and the retry-wrapped `_make_request`.
* `DuoSign` models the `_sign_request` method shared verbatim by
  `scripts/duo_student_cleanup.py` and `scripts/web_dashboard.py`,
  with the MAC and base64 primitives (library calls in the source)
  kept as function parameters.
* `DuoDashboard` models the `/api/user/bypass` endpoint handler
  `api_update_user_bypass` and the client method `update_user_status`
  of `scripts/web_dashboard.py`.

Strings that the proofs need to take apart are represented as
`List Char`; record fields that Python reads with `dict.get` are
`Option String`, with `none` standing for both an absent key and a
JSON null (both are falsy in Python and indistinguishable to this
code).  Python's truthiness test on such a field is `truthy`.
-/

namespace DuoCleanup

/-- Python truthiness of a `dict.get` result: `None` and the empty
string are falsy, any non-empty string is truthy. -/
def truthy : Option String → Bool
  | none => false
  | some s => !(s == "")

/-- An account record as returned by the remote `/users` endpoint.
Fields read by the scripts; everything else is carried opaquely and
omitted.  `status` is only read by the dashboard. -/
structure UserRec where
  user_id : String
  username : String
  directory_key : Option String := none
  external_id : Option String := none
  last_directory_sync : Option String := none
  status : Option String := none
  deriving Repr, DecidableEq

/-- Error raised by Python at runtime; `attributeError` models
`AttributeError` from calling a method on `None`. -/
inductive PyError
  | attributeError
  deriving Repr, DecidableEq

/-- Body of `is_directory_managed` for a record that is actually a
dict: `any([user.get('directory_key'), user.get('external_id'),
user.get('last_directory_sync')])`. -/
def managedMarkers (user : UserRec) : Bool :=
  truthy user.directory_key || truthy user.external_id || truthy user.last_directory_sync

/-- The function `is_directory_managed(user)` over the values the
dynamic call can receive: a record, or `None` (absent record).  On
`None`, `user.get('directory_key')` raises `AttributeError`. -/
def is_directory_managed : Option UserRec → Except PyError Bool
  | none => Except.error PyError.attributeError
  | some user => Except.ok (managedMarkers user)

/-- The local part of a username: `username.split('@')[0]`, i.e. the
characters before the first `'@'` (the whole string if there is none). -/
def localPart (username : List Char) : List Char :=
  username.takeWhile (fun c => !(c == '@'))

/-- Semantics of Python's `bool(re.match(r'^\d{6}$', s))`.  The
character class of `\d` on a str pattern — every Unicode decimal digit
(category Nd), whose exact extent depends on the interpreter's Unicode
tables — is kept as the parameter `dig`, the way the MAC and base64
library primitives are parameters of the signer.  The match is
anchored at the start; `\d{6}` consumes six characters of class `dig`;
Python's `$` matches at the end of the string or just before a single
newline at the very end of the string.  So the whole string must be
six `dig` characters, or six `dig` characters followed by one trailing
`'\n'`. -/
def matchSixDigitsDollar (dig : Char → Bool) (s : List Char) : Bool :=
  (s.length == 6 && s.all dig)
    || (s.length == 7 && (s.take 6).all dig && s.getLast? == some '\n')

/-- The function `is_student_account(username)`: strip the domain,
then match the local part against `^\d{6}$` with digit class `dig`. -/
def is_student_account (dig : Char → Bool) (username : List Char) : Bool :=
  matchSixDigitsDollar dig (localPart username)

/-- Run configuration of `main` (the flags the processing loop reads). -/
structure Config where
  dry_run : Bool
  interactive : Bool
  rate_limit_ms : ℚ
  deriving Repr

/-- Seconds slept by the per-call rate limit: `args.rate_limit_ms / 1000`. -/
def Config.rateDelay (cfg : Config) : ℚ := cfg.rate_limit_ms / 1000

/-- The external world of a run: what `get_user_by_username` returns
per username, whether `delete_user` reports success per user id, and
the operator's answer to the interactive prompt (`True` iff the typed
response lowercases to `'y'`). -/
structure Env where
  fetch : String → Option UserRec
  deleteOk : String → Bool
  confirm : String → Bool

/-- Observable action of the processing loop, in program order. -/
inductive Event
  | fetchCall (username : String)
  | deleteCall (user_id : String)
  | prompt (username : String)
  | sleep (seconds : ℚ)
  deriving Repr, DecidableEq

/-- One row of the `results` list (one CSV row). `managed_by_sync`
is `none` for the not-found branch (Python `None`). -/
structure RunResult where
  username : String
  in_duo : Bool
  managed_by_sync : Option Bool
  action : String
  result : String
  deriving Repr, DecidableEq

/-- One iteration of the `for username in usernames_to_check` loop of
`main`: returns the `results.append(...)` calls this iteration performs
(source: each branch appends exactly once) together with the events it
emits.  The interactive decline branch `continue`s before the
rate-limit sleep; every other branch ends with the sleep. -/
def processOne (cfg : Config) (env : Env) (username : String) :
    List RunResult × List Event :=
  match env.fetch username with
  | none =>
      ([⟨username, false, none, "None", "Not found in Duo"⟩],
       [Event.fetchCall username, Event.sleep cfg.rateDelay])
  | some user =>
      if managedMarkers user then
        ([⟨username, true, some true, "Skip",
           "Managed by directory sync - remove from sync scope"⟩],
         [Event.fetchCall username, Event.sleep cfg.rateDelay])
      else if cfg.interactive && !env.confirm username then
        ([⟨username, true, some false, "Skip", "User skipped deletion"⟩],
         [Event.fetchCall username, Event.prompt username])
      else
        let promptEvents := if cfg.interactive then [Event.prompt username] else []
        if cfg.dry_run then
          ([⟨username, true, some false, "Would DELETE", "Dry run - no action taken"⟩],
           Event.fetchCall username :: promptEvents ++ [Event.sleep cfg.rateDelay])
        else if env.deleteOk user.user_id then
          ([⟨username, true, some false, "DELETED", "Successfully deleted"⟩],
           Event.fetchCall username :: promptEvents
             ++ [Event.deleteCall user.user_id, Event.sleep cfg.rateDelay])
        else
          ([⟨username, true, some false, "ERROR", "Deletion failed"⟩],
           Event.fetchCall username :: promptEvents
             ++ [Event.deleteCall user.user_id, Event.sleep cfg.rateDelay])

/-- The whole processing loop of `main`: accumulated `results` list
and the run's event trace. -/
def mainLoop (cfg : Config) (env : Env) : List String → List RunResult × List Event
  | [] => ([], [])
  | u :: rest =>
      let step := processOne cfg env u
      let tail := mainLoop cfg env rest
      (step.1 ++ tail.1, step.2 ++ tail.2)

theorem mainLoop_cons (cfg : Config) (env : Env) (u : String) (rest : List String) :
    mainLoop cfg env (u :: rest) =
      ((processOne cfg env u).1 ++ (mainLoop cfg env rest).1,
       (processOne cfg env u).2 ++ (mainLoop cfg env rest).2) := rfl

/-- Every branch of the loop body appends exactly one result row, whose
`username` field is the processed username. -/
theorem processOne_shape (cfg : Config) (env : Env) (username : String) :
    ∃ r : RunResult, (processOne cfg env username).1 = [r] ∧ r.username = username := by
  unfold processOne
  cases env.fetch username with
  | none => exact ⟨_, rfl, rfl⟩
  | some user =>
      by_cases h1 : managedMarkers user
      · simp only [h1, if_pos]
        exact ⟨_, rfl, rfl⟩
      · by_cases h2 : cfg.interactive && !env.confirm username
        · simp only [h1, h2, if_neg, if_pos, Bool.false_eq_true, not_false_eq_true]
          exact ⟨_, rfl, rfl⟩
        · by_cases h3 : cfg.dry_run
          · simp only [h1, h2, h3, Bool.false_eq_true, not_false_eq_true, if_neg, if_pos]
            exact ⟨_, rfl, rfl⟩
          · by_cases h4 : env.deleteOk user.user_id
            · simp only [h1, h2, h3, h4, Bool.false_eq_true, not_false_eq_true, if_neg, if_pos]
              exact ⟨_, rfl, rfl⟩
            · simp only [h1, h2, h3, h4, Bool.false_eq_true, not_false_eq_true, if_neg]
              exact ⟨_, rfl, rfl⟩

/-- The usernames of the accumulated results are the processed
usernames, in order. -/
theorem mainLoop_usernames (cfg : Config) (env : Env) (us : List String) :
    ((mainLoop cfg env us).1).map RunResult.username = us := by
  induction us with
  | nil => rfl
  | cons u rest ih =>
      obtain ⟨r, hr, hu⟩ := processOne_shape cfg env u
      simp [mainLoop_cons, hr, hu, ih]

/-- Recognise the `time.sleep` events of a trace. -/
def isSleepEvent : Event → Bool
  | Event.sleep _ => true
  | _ => false

theorem mainLoop_append (cfg : Config) (env : Env) (l₁ l₂ : List String) :
    mainLoop cfg env (l₁ ++ l₂) =
      ((mainLoop cfg env l₁).1 ++ (mainLoop cfg env l₂).1,
       (mainLoop cfg env l₁).2 ++ (mainLoop cfg env l₂).2) := by
  induction l₁ with
  | nil => simp [mainLoop]
  | cons u rest ih => simp [mainLoop_cons, ih]

theorem mainLoop_results_mem (cfg : Config) (env : Env) (us : List String)
    (r : RunResult) (h : r ∈ (mainLoop cfg env us).1) :
    ∃ v ∈ us, (processOne cfg env v).1 = [r] := by
  induction us with
  | nil => simp [mainLoop] at h
  | cons u rest ih =>
      obtain ⟨r₀, hr₀, _⟩ := processOne_shape cfg env u
      rw [mainLoop_cons, hr₀] at h
      rcases List.mem_append.mp h with hl | hr
      · exact ⟨u, List.mem_cons_self u rest, by rw [hr₀, List.mem_singleton.mp hl]⟩
      · obtain ⟨v, hv, hp⟩ := ih hr
        exact ⟨v, List.mem_cons_of_mem u hv, hp⟩

theorem mainLoop_events_mem (cfg : Config) (env : Env) (us : List String)
    (e : Event) (h : e ∈ (mainLoop cfg env us).2) :
    ∃ v ∈ us, e ∈ (processOne cfg env v).2 := by
  induction us with
  | nil => simp [mainLoop] at h
  | cons u rest ih =>
      rw [mainLoop_cons] at h
      rcases List.mem_append.mp h with hl | hr
      · exact ⟨u, List.mem_cons_self u rest, hl⟩
      · obtain ⟨v, hv, hp⟩ := ih hr
        exact ⟨v, List.mem_cons_of_mem u hv, hp⟩

/-- The loop body on a fetched, directory-managed record: the `elif
is_directory_managed(user)` branch. -/
theorem processOne_managed (cfg : Config) (env : Env) (username : String)
    (user : UserRec) (hfetch : env.fetch username = some user)
    (hman : managedMarkers user = true) :
    processOne cfg env username =
      ([⟨username, true, some true, "Skip",
         "Managed by directory sync - remove from sync scope"⟩],
       [Event.fetchCall username, Event.sleep cfg.rateDelay]) := by
  unfold processOne
  rw [hfetch]
  simp [hman]

/-- A delete call in an iteration's trace can only come from the
unmanaged, non-dry-run branch, and carries that record's user id. -/
theorem processOne_deleteCall (cfg : Config) (env : Env) (v : String) (uid : String)
    (h : Event.deleteCall uid ∈ (processOne cfg env v).2) :
    ∃ rec, env.fetch v = some rec ∧ managedMarkers rec = false ∧
      rec.user_id = uid ∧ cfg.dry_run = false := by
  unfold processOne at h
  cases hf : env.fetch v <;> rw [hf] at h
  case none => simp at h
  case some user =>
      by_cases h1 : managedMarkers user
      · simp [h1] at h
      · by_cases h2 : cfg.interactive && !env.confirm v
        · simp only [h1, Bool.false_eq_true, not_false_eq_true, if_neg, h2, if_pos] at h
          simp at h
        · by_cases h3 : cfg.dry_run
          · simp only [h1, Bool.false_eq_true, not_false_eq_true, if_neg, h2, h3, if_pos] at h
            cases hI : cfg.interactive <;> simp [hI] at h
          · by_cases h4 : env.deleteOk user.user_id
            · simp only [h1, Bool.false_eq_true, not_false_eq_true, if_neg, h2, h3, h4,
                if_pos] at h
              cases hI : cfg.interactive <;> simp [hI] at h <;>
                exact ⟨user, rfl, by simpa using h1, h.symm, by simpa using h3⟩
            · simp only [h1, Bool.false_eq_true, not_false_eq_true, if_neg, h2, h3, h4] at h
              cases hI : cfg.interactive <;> simp [hI] at h <;>
                exact ⟨user, rfl, by simpa using h1, h.symm, by simpa using h3⟩

/-- In a non-interactive run every iteration sleeps exactly once, for
the per-call rate-limit delay. -/
theorem processOne_sleepFilter (cfg : Config) (env : Env) (u : String)
    (hint : cfg.interactive = false) :
    ((processOne cfg env u).2).filter isSleepEvent = [Event.sleep cfg.rateDelay] := by
  unfold processOne
  cases hf : env.fetch u
  case none => simp [isSleepEvent]
  case some user =>
      by_cases h1 : managedMarkers user
      · simp [h1, isSleepEvent]
      · by_cases h3 : cfg.dry_run <;>
          by_cases h4 : env.deleteOk user.user_id <;>
            simp [h1, h3, h4, hint, isSleepEvent]

theorem mainLoop_sleepFilter (cfg : Config) (env : Env) (us : List String)
    (hint : cfg.interactive = false) :
    ((mainLoop cfg env us).2).filter isSleepEvent =
      List.replicate us.length (Event.sleep cfg.rateDelay) := by
  induction us with
  | nil => rfl
  | cons u rest ih =>
      rw [mainLoop_cons]
      simp only [List.filter_append, processOne_sleepFilter cfg env u hint, ih,
        List.length_cons, List.replicate_succ]
      rfl

end DuoCleanup

namespace DuoRetry

/-- The exception taxonomy of `duo_api_with_retry.py`.  `timeout` and
`connectionError` are the raw `requests.exceptions.Timeout` /
`ConnectionError`; `apiError` is the base `DuoAPIError` (raised
directly for generic client errors, non-OK envelopes, and the wrapped
network failures). -/
inductive DuoErr
  | rateLimit
  | serverError
  | timeout
  | connectionError
  | authError
  | notFound
  | apiError
  deriving Repr, DecidableEq

/-- The decorator's retry clause: `except (DuoRateLimitError,
DuoServerError, Timeout, ConnectionError)`.  Everything else
propagates out of the wrapper at once (auth/not-found are re-raised
explicitly; a plain `DuoAPIError` matches no except clause). -/
def retryable : DuoErr → Bool
  | DuoErr.rateLimit => true
  | DuoErr.serverError => true
  | DuoErr.timeout => true
  | DuoErr.connectionError => true
  | _ => false

/-- Parameters of `exponential_backoff_retry`, with the source defaults. -/
structure RetryCfg where
  max_retries : ℕ := 3
  base_delay : ℚ := 1
  max_delay : ℚ := 60
  exponential_base : ℚ := 2
  jitter : Bool := true
  deriving Repr

/-- The pre-jitter backoff delay of attempt `a`:
`min(base_delay * (exponential_base ** attempt), max_delay)`. -/
def preDelay (cfg : RetryCfg) (a : ℕ) : ℚ :=
  min (cfg.base_delay * cfg.exponential_base ^ a) cfg.max_delay

/-- The delay actually passed to `time.sleep`: the pre-jitter delay,
scaled by `(0.5 + random.random())` when jitter is enabled; `rand a`
is the value drawn by `random.random()` before the sleep that follows
attempt `a`. -/
def sleptDelay (cfg : RetryCfg) (rand : ℕ → ℚ) (a : ℕ) : ℚ :=
  if cfg.jitter then preDelay cfg a * (1/2 + rand a) else preDelay cfg a

/-- The `for attempt in range(max_retries + 1)` loop of the wrapper,
over the list of remaining attempt indices.  `f a` is the outcome of
calling the wrapped function on attempt `a`.  Returned are the
wrapper's result and the list of `(pre-jitter delay, slept delay)`
pairs of its `time.sleep` calls, in order.  On a retryable failure at
the last index the loop `break`s and re-raises the last exception; a
non-retryable failure is raised immediately.  (The empty-list case is
unreachable: the loop is entered with `max_retries + 1 ≥ 1` indices.) -/
def retryLoop (cfg : RetryCfg) (rand : ℕ → ℚ) (f : ℕ → Except DuoErr α) :
    List ℕ → Except DuoErr α × List (ℚ × ℚ)
  | [] => (Except.error DuoErr.apiError, [])
  | a :: rest =>
      match f a with
      | Except.ok v => (Except.ok v, [])
      | Except.error e =>
          if retryable e then
            match rest with
            | [] => (Except.error e, [])
            | b :: more =>
                let tail := retryLoop cfg rand f (b :: more)
                (tail.1, (preDelay cfg a, sleptDelay cfg rand a) :: tail.2)
          else (Except.error e, [])

/-- The wrapper produced by `exponential_backoff_retry(...)` applied
to a function whose attempt outcomes are `f`. -/
def exponential_backoff_retry (cfg : RetryCfg) (rand : ℕ → ℚ)
    (f : ℕ → Except DuoErr α) : Except DuoErr α × List (ℚ × ℚ) :=
  retryLoop cfg rand f (List.range (cfg.max_retries + 1))

/-- Transport-level outcome of one HTTP attempt inside
`_make_request`: a response with an HTTP status code and the vendor
envelope's `stat` field, or a raised `requests` exception. -/
inductive HttpOutcome
  | resp (status : ℕ) (statOk : Bool)
  | timeout
  | connError
  | otherReqExc
  deriving Repr, DecidableEq

/-- One un-retried execution of the body of `_make_request`: the
`_handle_response_errors` status dispatch, the envelope check, and the
`except Timeout / ConnectionError / RequestException` clauses that
wrap transport failures into a plain `DuoAPIError`. -/
def make_request_once (o : HttpOutcome) : Except DuoErr Unit :=
  match o with
  | HttpOutcome.timeout => Except.error DuoErr.apiError
  | HttpOutcome.connError => Except.error DuoErr.apiError
  | HttpOutcome.otherReqExc => Except.error DuoErr.apiError
  | HttpOutcome.resp status statOk =>
      if status == 401 then Except.error DuoErr.authError
      else if status == 403 then Except.error DuoErr.authError
      else if status == 404 then Except.error DuoErr.notFound
      else if status == 429 then Except.error DuoErr.rateLimit
      else if 500 ≤ status then Except.error DuoErr.serverError
      else if 400 ≤ status then Except.error DuoErr.apiError
      else if !statOk then Except.error DuoErr.apiError
      else Except.ok ()

/-- `_make_request` as deployed: the body above wrapped by
`@exponential_backoff_retry(max_retries=3)` (all other parameters at
their defaults).  `outcomes a` is the transport outcome of attempt `a`. -/
def make_request (rand : ℕ → ℚ) (outcomes : ℕ → HttpOutcome) :
    Except DuoErr Unit × List (ℚ × ℚ) :=
  exponential_backoff_retry { max_retries := 3 } rand
    (fun a => make_request_once (outcomes a))

end DuoRetry

namespace DuoSign

/-- Python `str.upper()` (the strings signed here are ASCII). -/
def pyUpper (s : List Char) : List Char := s.map Char.toUpper

/-- Python `str.lower()`. -/
def pyLower (s : List Char) : List Char := s.map Char.toLower

/-- Lexicographic strict order on strings by code point, as Python
compares `str` values. -/
def charListLt : List Char → List Char → Bool
  | [], [] => false
  | [], _ :: _ => true
  | _ :: _, [] => false
  | a :: s, b :: t => if a < b then true else if a = b then charListLt s t else false

/-- Python's ordering of `(key, value)` pairs as used by
`sorted(params.items())`: compare keys first, then values. -/
def pairLe (x y : List Char × List Char) : Bool :=
  if charListLt x.1 y.1 then true
  else if x.1 = y.1 then charListLt x.2 y.2 || x.2 == y.2
  else false

/-- Insert into a sorted list (the comparison-sort semantics of
Python's `sorted`; with distinct keys the result is order-unique, so
any correct sort models it). -/
def insertLe (x : List Char × List Char) :
    List (List Char × List Char) → List (List Char × List Char)
  | [] => [x]
  | y :: ys => if pairLe x y then x :: y :: ys else y :: insertLe x ys

/-- `sorted(params.items())`. -/
def sortPairs : List (List Char × List Char) → List (List Char × List Char)
  | [] => []
  | x :: xs => insertLe x (sortPairs xs)

/-- The characters `urllib.parse.quote_plus` leaves unescaped with the
default `safe=''`: ASCII letters, digits, `_`, `.`, `-`, `~`. -/
def isSafeChar (c : Char) : Bool :=
  c.isAlphanum || c == '_' || c == '.' || c == '-' || c == '~'

/-- Uppercase hex digit of a value below 16. -/
def hexDigit (n : ℕ) : Char :=
  if n < 10 then Char.ofNat ('0'.toNat + n) else Char.ofNat ('A'.toNat + (n - 10))

/-- `quote_plus` on one character: safe characters pass through, space
becomes `+`, anything else is percent-encoded (`%XX` of its byte; the
parameters signed here are ASCII, so one byte per character). -/
def encodeChar (c : Char) : List Char :=
  if isSafeChar c then [c]
  else if c == ' ' then ['+']
  else ['%', hexDigit (c.toNat / 16 % 16), hexDigit (c.toNat % 16)]

/-- `urllib.parse.quote_plus` over a string. -/
def quotePlus (s : List Char) : List Char := s.flatMap encodeChar

/-- Join the `k=v` components of `urlencode` with `&`. -/
def joinAmp : List (List Char) → List Char
  | [] => []
  | [x] => x
  | x :: y :: xs => x ++ '&' :: joinAmp (y :: xs)

/-- `urllib.parse.urlencode(sorted_params)`: each pair rendered as
`quote_plus(k)=quote_plus(v)`, joined with `&`. -/
def urlencodePairs (ps : List (List Char × List Char)) : List Char :=
  joinAmp (ps.map (fun kv => quotePlus kv.1 ++ '=' :: quotePlus kv.2))

/-- `'\n'.join(canon)`. -/
def joinNl : List (List Char) → List Char
  | [] => []
  | [x] => x
  | x :: y :: xs => x ++ '\n' :: joinNl (y :: xs)

/-- The fifth canonical line: the encoded sorted parameters, but only
when `params` is non-empty (truthy) and the uppercased method is GET
or DELETE; otherwise the empty string. -/
def paramsLine (method : List Char) (params : List (List Char × List Char)) : List Char :=
  if !params.isEmpty
      && (pyUpper method == ['G', 'E', 'T'] || pyUpper method == ['D', 'E', 'L', 'E', 'T', 'E'])
  then urlencodePairs (sortPairs params)
  else []

/-- `canon_string`: date, uppercased method, lowercased host, path and
the parameter line, joined with newlines. -/
def canon_string (date method host path : List Char)
    (params : List (List Char × List Char)) : List Char :=
  joinNl [date, pyUpper method, pyLower host, path, paramsLine method params]

/-- The headers returned by `_sign_request`. -/
structure SignedHeaders where
  date : List Char
  authorization : List Char
  host : List Char
  contentType : List Char
  deriving Repr, DecidableEq

/-- `_sign_request`, with the computed timestamp fixed as the `date`
argument and the two library primitives as parameters: `hmacF skey msg`
is the hex digest of HMAC-SHA1 and `b64F` is base64 of a string.  The
signature is `hmacF` of the secret key and the canonical string; the
`Authorization` value is `Basic` plus base64 of `ikey:signature`. -/
def sign_request (hmacF : List Char → List Char → List Char)
    (b64F : List Char → List Char) (ikey skey host : List Char)
    (date method path : List Char) (params : List (List Char × List Char)) :
    List Char × SignedHeaders :=
  let signature := hmacF skey (canon_string date method host path params)
  let auth := b64F (ikey ++ ':' :: signature)
  (date,
   { date := date
     authorization := ('B' : Char) :: ('a' : Char) :: ('s' : Char) :: ('i' : Char)
       :: ('c' : Char) :: (' ' : Char) :: auth
     host := host
     contentType := "application/x-www-form-urlencoded".data })

/-- Decidable sortedness of a parameter list under `pairLe`
(consecutive pairs in order), the shape `sorted(...)` leaves and a
Python dict with distinct keys yields. -/
def pairsSortedLe : List (List Char × List Char) → Bool
  | [] => true
  | [_] => true
  | x :: y :: rest => pairLe x y && pairsSortedLe (y :: rest)

end DuoSign

namespace DuoDashboard

open DuoCleanup (UserRec truthy)

/-- JSON body of a `POST /api/user/bypass` request, as read by
`data.get('username')` / `data.get('status')`. -/
structure BypassReq where
  username : Option String := none
  status : Option String := none
  deriving Repr, DecidableEq

/-- Remote Duo calls the dashboard can issue while handling the
request: the lookup inside `get_user_by_username` and the POST inside
`update_user_status`. -/
inductive ApiEvent
  | getUser (username : String)
  | updateStatus (user_id : String) (status : String)
  deriving Repr, DecidableEq

/-- Responses of `api_update_user_bypass` (HTTP status in comments). -/
inductive BypassResp
  | missingFields                          -- 400, fields required
  | invalidStatus                          -- 400, not in valid_statuses
  | userNotFound                           -- 404
  | noChange (status : String)             -- 200, already that status
  | updated (oldStatus newStatus : String) -- 200
  | updateFailed                           -- update returned False
  deriving Repr, DecidableEq

/-- Remote world of the dashboard: the record `get_user_by_username`
returns per username, and whether the status-update POST succeeds. -/
structure DashEnv where
  lookup : String → Option UserRec
  updateOk : String → String → Bool

/-- The client method `DuoAdminAPI.update_user_status` of
`web_dashboard.py`: it performs no validation of its own and issues
the remote POST unconditionally, reporting success as a boolean. -/
def update_user_status (env : DashEnv) (user_id status : String) :
    Bool × List ApiEvent :=
  (env.updateOk user_id status, [ApiEvent.updateStatus user_id status])

/-- `valid_statuses = ['Active', 'Bypass', 'Disabled', 'Locked Out']`. -/
def valid_statuses : List String := ["Active", "Bypass", "Disabled", "Locked Out"]

/-- The endpoint handler `api_update_user_bypass`: require both
fields (Python truthiness), validate the status against
`valid_statuses`, and only then look the user up and call
`update_user_status`.  Returns the response and the remote calls
issued. -/
def api_update_user_bypass (env : DashEnv) (req : BypassReq) :
    BypassResp × List ApiEvent :=
  if !truthy req.username || !truthy req.status then
    (BypassResp.missingFields, [])
  else
    let username := req.username.getD ""
    let new_status := req.status.getD ""
    if ¬ new_status ∈ valid_statuses then
      (BypassResp.invalidStatus, [])
    else
      match env.lookup username with
      | none => (BypassResp.userNotFound, [ApiEvent.getUser username])
      | some user =>
          if user.status = some new_status then
            (BypassResp.noChange new_status, [ApiEvent.getUser username])
          else
            let upd := update_user_status env user.user_id new_status
            if upd.1 then
              (BypassResp.updated (user.status.getD "") new_status,
               ApiEvent.getUser username :: upd.2)
            else
              (BypassResp.updateFailed, ApiEvent.getUser username :: upd.2)

end DuoDashboard

open DuoCleanup

theorem truthy_iff (v : Option String) : truthy v = true ↔ ∃ s, v = some s ∧ s ≠ "" := by
  cases v <;> simp [truthy]

/-- A directory-managed test record. -/
def managedRecW : UserRec :=
  { user_id := "u9", username := "111111", directory_key := some "sync1" }

/-- An unmanaged test record whose deletion succeeds. -/
def plainRecW : UserRec := { user_id := "u1", username := "123456" }

/-- An unmanaged test record whose deletion fails. -/
def errRecW : UserRec := { user_id := "u2", username := "222222" }

/-- Test run configuration: non-interactive live run, 800 ms rate limit. -/
def cfgW : Config := { dry_run := false, interactive := false, rate_limit_ms := 800 }

/-- Test environment for the orchestrator. -/
def envW : Env :=
  { fetch := fun u =>
      if u = "111111" then some managedRecW
      else if u = "123456" then some plainRecW
      else if u = "222222" then some errRecW
      else none
    deleteOk := fun uid => uid = "u1"
    confirm := fun _ => true }

/-- Claim C1: in every cleanup run, a processed username whose fetched
record is directory-managed (non-empty `directory_key`, `external_id`
or `last_directory_sync`) gets the outcome row `Skip` with
`Managed_By_Sync = True`, its iteration emits no delete call, and any
delete call in the run's trace comes from a username whose fetched
record is unmanaged. -/
theorem C1_directory_managed_skip (cfg : Config) (env : Env) (us : List String)
    (username : String) (user : UserRec)
    (hfetch : env.fetch username = some user)
    (hman : managedMarkers user = true) :
    (∀ r ∈ (mainLoop cfg env us).1, r.username = username →
        r.action = "Skip" ∧ r.managed_by_sync = some true ∧
        r.result = "Managed by directory sync - remove from sync scope") ∧
    (∀ uid : String, Event.deleteCall uid ∉ (processOne cfg env username).2) ∧
    (∀ uid : String, Event.deleteCall uid ∈ (mainLoop cfg env us).2 →
        ∃ v ∈ us, ∃ rec, env.fetch v = some rec ∧ managedMarkers rec = false ∧
          rec.user_id = uid) := by
  refine ⟨?_, ?_, ?_⟩
  · intro r hr hname
    obtain ⟨v, hv, hp⟩ := mainLoop_results_mem cfg env us r hr
    obtain ⟨r₂, hr₂, hu₂⟩ := processOne_shape cfg env v
    rw [hp] at hr₂
    have hrv : r = r₂ := by simpa using hr₂
    have hveq : v = username := by rw [← hname, hrv, hu₂]
    subst hveq
    rw [processOne_managed cfg env v user hfetch hman] at hp
    have : r = ⟨v, true, some true, "Skip",
        "Managed by directory sync - remove from sync scope"⟩ := by
      simpa using hp.symm
    rw [this]
    exact ⟨rfl, rfl, rfl⟩
  · intro uid
    rw [processOne_managed cfg env username user hfetch hman]
    simp
  · intro uid h
    obtain ⟨v, hv, hp⟩ := mainLoop_events_mem cfg env us (Event.deleteCall uid) h
    obtain ⟨rec, hrec, hm, huid, _⟩ := processOne_deleteCall cfg env v uid hp
    exact ⟨v, hv, rec, hrec, hm, huid⟩

/-- Witness for C1: a concrete run over a managed and an unmanaged
username, with the hypotheses discharged by evaluation. -/
theorem C1_witness :
    envW.fetch "111111" = some managedRecW ∧ managedMarkers managedRecW = true ∧
    ((∀ r ∈ (mainLoop cfgW envW ["111111", "123456"]).1, r.username = "111111" →
        r.action = "Skip" ∧ r.managed_by_sync = some true ∧
        r.result = "Managed by directory sync - remove from sync scope") ∧
     (∀ uid : String, Event.deleteCall uid ∉ (processOne cfgW envW "111111").2) ∧
     (∀ uid : String, Event.deleteCall uid ∈ (mainLoop cfgW envW ["111111", "123456"]).2 →
        ∃ v ∈ ["111111", "123456"], ∃ rec, envW.fetch v = some rec ∧
          managedMarkers rec = false ∧ rec.user_id = uid)) :=
  ⟨by decide, by decide,
   C1_directory_managed_skip cfgW envW ["111111", "123456"] "111111" managedRecW
     (by decide) (by decide)⟩

/-- The stray-candidate predicate as the claim words it, for digit
class `dig`: the part of the username before the first `@` consists of
exactly six digits. -/
def SixDigitLocal (dig : Char → Bool) (u : List Char) : Prop :=
  (localPart u).length = 6 ∧ ∀ c ∈ localPart u, dig c = true

/-- The value of `is_student_account` on a username depends on the
digit class only through the username's own characters: any two
classes that agree on them give the same answer.  In particular, on an
ASCII username every Unicode-faithful model of `\d` agrees with
`Char.isDigit`. -/
theorem is_student_account_congr (dig₁ dig₂ : Char → Bool) (u : List Char)
    (h : ∀ c ∈ u, dig₁ c = dig₂ c) :
    is_student_account dig₁ u = is_student_account dig₂ u := by
  have hall : ∀ (l : List Char), (∀ c ∈ l, dig₁ c = dig₂ c) →
      l.all dig₁ = l.all dig₂ := by
    intro l hl
    induction l with
    | nil => rfl
    | cons a as ih =>
        simp only [List.all_cons]
        rw [hl a (List.mem_cons_self a as),
          ih (fun c hc => hl c (List.mem_cons_of_mem a hc))]
  have hloc : ∀ c ∈ localPart u, dig₁ c = dig₂ c := fun c hc =>
    h c ((List.takeWhile_sublist _).mem hc)
  unfold is_student_account matchSixDigitsDollar
  rw [hall (localPart u) hloc,
    hall ((localPart u).take 6)
      (fun c hc => hloc c ((List.take_sublist 6 (localPart u)).mem hc))]

/-- Counterexample to claim C2 as stated: the username consisting of
six digits followed by a newline (and no `@`) is not of the claimed
shape — its local part is seven characters, not six digits — yet
`is_student_account` returns true, because Python's `$` also matches
just before a single trailing newline.  The digit class is
instantiated at `Char.isDigit`; on these seven ASCII code points every
Unicode-faithful model of `\d` agrees with it (the digits `1`–`6` are
category-Nd characters and `'\n'` is not), so the instantiation is
exact — `is_student_account_congr` makes that independence formal. -/
theorem C2_counterexample :
    is_student_account Char.isDigit ['1', '2', '3', '4', '5', '6', '\n'] = true ∧
    ¬ SixDigitLocal Char.isDigit ['1', '2', '3', '4', '5', '6', '\n'] := by
  constructor
  · decide
  · intro h
    exact absurd h.1 (by decide)

/-- Claim C2 (amended): for every character class `dig` standing for
the regex's `\d` (in Python: any Unicode decimal digit, category Nd),
`is_student_account` returns true iff the part of the username before
the first `@` is exactly six `dig` characters, or exactly six `dig`
characters followed by a single trailing newline (Python's `$` matches
just before a final newline); every other shape returns false. -/
theorem C2_stray_iff (dig : Char → Bool) (u : List Char) :
    is_student_account dig u = true ↔
      SixDigitLocal dig u ∨
        (∃ d : List Char, localPart u = d ++ ['\n'] ∧ d.length = 6 ∧
          ∀ c ∈ d, dig c = true) := by
  unfold is_student_account matchSixDigitsDollar SixDigitLocal
  simp only [Bool.or_eq_true, Bool.and_eq_true, beq_iff_eq, List.all_eq_true]
  constructor
  · rintro (⟨h6, hall⟩ | ⟨⟨h7, hall⟩, hlast⟩)
    · exact Or.inl ⟨h6, hall⟩
    · right
      have hne : localPart u ≠ [] := by
        intro he
        rw [he] at h7
        exact absurd h7 (by decide)
      refine ⟨(localPart u).dropLast, ?_, ?_, ?_⟩
      · have hcat := List.dropLast_append_getLast hne
        have hlast2 : (localPart u).getLast hne = '\n' := by
          have := List.getLast?_eq_getLast (localPart u) hne
          rw [this] at hlast
          exact (Option.some.injEq _ _).mp hlast
        rw [← hlast2]
        exact hcat.symm
      · simp [List.length_dropLast, h7]
      · intro c hc
        apply hall
        have : (localPart u).dropLast = (localPart u).take 6 := by
          rw [List.dropLast_eq_take, h7]
        rw [this] at hc
        exact hc
  · rintro (⟨h6, hall⟩ | ⟨d, hd, h6, hall⟩)
    · exact Or.inl ⟨h6, hall⟩
    · right
      rw [hd]
      refine ⟨⟨by simp [h6], ?_⟩, ?_⟩
      · intro c hc
        apply hall
        have : (d ++ ['\n']).take 6 = d := by
          have : d.length = 6 := h6
          rw [← this]
          exact List.take_left d ['\n']
        rwa [this] at hc
      · simp

/-- Witness for C2 (amended), at a username with a domain suffix and
the ASCII digit class. -/
theorem C2_witness :
    is_student_account Char.isDigit "123456@eusd.org".data = true ↔
      SixDigitLocal Char.isDigit "123456@eusd.org".data ∨
        (∃ d : List Char, localPart "123456@eusd.org".data = d ++ ['\n'] ∧ d.length = 6 ∧
          ∀ c ∈ d, c.isDigit = true) :=
  C2_stray_iff Char.isDigit "123456@eusd.org".data

/-- Counterexample to claim C3 as stated: on an absent record (Python
`None`) `is_directory_managed` does not return false — the attribute
access `user.get` raises `AttributeError`. -/
theorem C3_counterexample :
    is_directory_managed none = Except.error PyError.attributeError ∧
    is_directory_managed none ≠ Except.ok false ∧
    is_directory_managed none ≠ Except.ok true :=
  ⟨rfl, fun h => Except.noConfusion h, fun h => Except.noConfusion h⟩

/-- Claim C3 (amended): for a present record, `is_directory_managed`
returns true iff the record carries a non-empty `directory_key`,
`external_id` or `last_directory_sync`, and false when it carries none
of them; on an absent record (`None`) it raises `AttributeError`
instead of returning false (the orchestrator checks the not-found case
first, so it never passes an absent record). -/
theorem C3_managed_iff_marker (u : UserRec) :
    (is_directory_managed (some u) = Except.ok true ↔
      ((∃ s, u.directory_key = some s ∧ s ≠ "") ∨
       (∃ s, u.external_id = some s ∧ s ≠ "") ∨
       (∃ s, u.last_directory_sync = some s ∧ s ≠ ""))) ∧
    (managedMarkers u = false → is_directory_managed (some u) = Except.ok false) ∧
    is_directory_managed none = Except.error PyError.attributeError := by
  refine ⟨?_, ?_, rfl⟩
  · simp only [is_directory_managed, Except.ok.injEq, managedMarkers, Bool.or_eq_true,
      truthy_iff]
    exact or_assoc
  · intro h
    simp [is_directory_managed, h]

/-- The loop body when the fetched record is unmanaged, the run is
live (not dry), the prompt (if any) was confirmed, and `delete_user`
returns `False`: the iteration records the `ERROR` row. -/
theorem processOne_deleteFailed (cfg : Config) (env : Env) (username : String)
    (user : UserRec) (hfetch : env.fetch username = some user)
    (hman : managedMarkers user = false)
    (hconf : cfg.interactive = true → env.confirm username = true)
    (hdry : cfg.dry_run = false)
    (hdel : env.deleteOk user.user_id = false) :
    (processOne cfg env username).1 =
      [⟨username, true, some false, "ERROR", "Deletion failed"⟩] := by
  have h2 : (cfg.interactive && !env.confirm username) = false := by
    cases hI : cfg.interactive
    · simp
    · simp [hconf hI]
  unfold processOne
  rw [hfetch]
  simp [hman, h2, hdry, hdel]

/-- Claim C8: if the delete call for one username fails, the
orchestrator records the `ERROR` outcome for that username and keeps
processing: the result list is the results of the preceding usernames,
then the `ERROR` row, then the results of the remaining usernames, and
its length is the full batch length. -/
theorem C8_delete_error_run_continues (cfg : Config) (env : Env)
    (pre post : List String) (username : String) (user : UserRec)
    (hfetch : env.fetch username = some user)
    (hman : managedMarkers user = false)
    (hconf : cfg.interactive = true → env.confirm username = true)
    (hdry : cfg.dry_run = false)
    (hdel : env.deleteOk user.user_id = false) :
    (mainLoop cfg env (pre ++ username :: post)).1 =
      (mainLoop cfg env pre).1 ++
        ⟨username, true, some false, "ERROR", "Deletion failed"⟩ ::
          (mainLoop cfg env post).1 ∧
    ((mainLoop cfg env (pre ++ username :: post)).1).length =
      pre.length + 1 + post.length := by
  constructor
  · rw [mainLoop_append, mainLoop_cons,
      processOne_deleteFailed cfg env username user hfetch hman hconf hdry hdel]
    simp
  · have h := congrArg List.length (mainLoop_usernames cfg env (pre ++ username :: post))
    simp only [List.length_map] at h
    simp [h]
    omega

/-- Witness for C8: the batch processes a managed username, then the
failing delete, then a deletable username; the failing account is
recorded as `ERROR` and the run continues. -/
theorem C8_witness :
    envW.fetch "222222" = some errRecW ∧ managedMarkers errRecW = false ∧
    cfgW.dry_run = false ∧ envW.deleteOk errRecW.user_id = false ∧
    ((mainLoop cfgW envW (["111111"] ++ "222222" :: ["123456"])).1 =
      (mainLoop cfgW envW ["111111"]).1 ++
        ⟨"222222", true, some false, "ERROR", "Deletion failed"⟩ ::
          (mainLoop cfgW envW ["123456"]).1 ∧
     ((mainLoop cfgW envW (["111111"] ++ "222222" :: ["123456"])).1).length =
       List.length ["111111"] + 1 + List.length ["123456"]) :=
  ⟨by decide, by decide, by decide, by decide,
   C8_delete_error_run_continues cfgW envW ["111111"] ["123456"] "222222" errRecW
     (by decide) (by decide) (fun h => absurd h (by decide)) (by decide) (by decide)⟩

/-- Twelve distinct candidate usernames, all fetched as unmanaged
records, for a non-interactive dry run. -/
def us12 : List String :=
  ["100001", "100002", "100003", "100004", "100005", "100006",
   "100007", "100008", "100009", "100010", "100011", "100012"]

/-- Environment for the C9 run: every username resolves to an
unmanaged record. -/
def env9 : Env :=
  { fetch := fun u => some { user_id := u, username := u }
    deleteOk := fun _ => false
    confirm := fun _ => true }

/-- Configuration for the C9 run: dry run, non-interactive, the
default 800 ms rate limit. -/
def cfg9 : Config := { dry_run := true, interactive := false, rate_limit_ms := 800 }

/-- Counterexample to claim C9 as stated: a processing phase over
twelve usernames — more than the ten-per-batch size used anywhere in
the repository — contains exactly twelve sleep events, one per
processed username and all equal to the 0.8 s per-call rate-limit
pause.  No extra pause after any batch of usernames occurs, so the
orchestrator inserts no per-batch pause in addition to the per-call
rate limiting. -/
theorem C9_counterexample :
    us12.length = 12 ∧
    ((mainLoop cfg9 env9 us12).2).filter isSleepEvent =
      List.replicate 12 (Event.sleep (4 / 5)) ∧
    (((mainLoop cfg9 env9 us12).2).filter isSleepEvent).length = us12.length := by
  have h := mainLoop_sleepFilter cfg9 env9 us12 rfl
  have hd : cfg9.rateDelay = 4 / 5 := by
    norm_num [Config.rateDelay, cfg9]
  refine ⟨rfl, ?_, ?_⟩
  · rw [h, hd]
    rfl
  · rw [h]
    rfl

/-- Claim C9 (amended): during the processing phase of a
non-interactive cleanup run the orchestrator pauses exactly once per
processed username, for the per-call rate-limit delay; it inserts no
extra pause after batches of usernames.  (The extra fixed 2 s pause
after every batch of ten exists only in the separate bulk-delete
helper, which the cleanup run does not invoke.) -/
theorem C9_amended_only_per_call_pauses (cfg : Config) (env : Env) (us : List String)
    (hint : cfg.interactive = false) :
    ((mainLoop cfg env us).2).filter isSleepEvent =
      List.replicate us.length (Event.sleep cfg.rateDelay) :=
  mainLoop_sleepFilter cfg env us hint

/-- Witness for C9 (amended): the concrete twelve-username run. -/
theorem C9_witness :
    cfg9.interactive = false ∧
    ((mainLoop cfg9 env9 us12).2).filter isSleepEvent =
      List.replicate us12.length (Event.sleep cfg9.rateDelay) :=
  ⟨rfl, C9_amended_only_per_call_pauses cfg9 env9 us12 rfl⟩

/-- Claim C10: every processing branch appends exactly one result row,
and a run's result list carries the processed usernames one-to-one, in
input order. -/
theorem C10_one_result_per_username (cfg : Config) (env : Env) (us : List String) :
    (∀ u : String, ((processOne cfg env u).1).length = 1) ∧
    ((mainLoop cfg env us).1).map RunResult.username = us := by
  constructor
  · intro u
    obtain ⟨r, hr, _⟩ := processOne_shape cfg env u
    rw [hr]
    rfl
  · exact mainLoop_usernames cfg env us

/-- Witness for C10: a concrete four-username run exercising the
not-found, managed, deleted and error branches. -/
theorem C10_witness :
    (∀ u : String, ((processOne cfgW envW u).1).length = 1) ∧
    ((mainLoop cfgW envW ["111111", "123456", "222222", "999999"]).1).map
      RunResult.username = ["111111", "123456", "222222", "999999"] :=
  C10_one_result_per_username cfgW envW ["111111", "123456", "222222", "999999"]

open DuoRetry

theorem retryLoop_cons_ok {α : Type} (cfg : RetryCfg) (rand : ℕ → ℚ)
    (f : ℕ → Except DuoErr α) (a : ℕ) (rest : List ℕ) (v : α)
    (hfe : f a = Except.ok v) :
    retryLoop cfg rand f (a :: rest) = (Except.ok v, []) := by
  unfold retryLoop
  rw [hfe]

theorem retryLoop_cons_error {α : Type} (cfg : RetryCfg) (rand : ℕ → ℚ)
    (f : ℕ → Except DuoErr α) (a b : ℕ) (more : List ℕ) (e : DuoErr)
    (hfe : f a = Except.error e) (hre : retryable e = true) :
    retryLoop cfg rand f (a :: b :: more) =
      ((retryLoop cfg rand f (b :: more)).1,
       (preDelay cfg a, sleptDelay cfg rand a) :: (retryLoop cfg rand f (b :: more)).2) := by
  conv_lhs => unfold retryLoop
  rw [hfe]
  simp [hre]

/-- Behaviour of the retry loop over the attempt indices `a, a+1, ...,
a+n-1` when the wrapped call fails retryably on the first `k` attempts
and succeeds on attempt `a + k`, with `k < n`: it returns the success
and sleeps once per failure with the backoff delays of attempts
`a, ..., a+k-1`. -/
theorem retryLoop_ok {α : Type} (cfg : RetryCfg) (rand : ℕ → ℚ)
    (f : ℕ → Except DuoErr α) (v : α) :
    ∀ (k a n : ℕ), k < n →
      (∀ i, i < k → ∃ e, f (a + i) = Except.error e ∧ retryable e = true) →
      f (a + k) = Except.ok v →
      retryLoop cfg rand f (List.range' a n) =
        (Except.ok v,
         (List.range k).map (fun i => (preDelay cfg (a + i), sleptDelay cfg rand (a + i)))) := by
  intro k
  induction k with
  | zero =>
      intro a n hn _ hsucc
      obtain ⟨m, rfl⟩ := Nat.exists_eq_succ_of_ne_zero (Nat.pos_iff_ne_zero.mp hn)
      rw [Nat.add_zero] at hsucc
      rw [List.range'_succ]
      rw [retryLoop_cons_ok cfg rand f a _ v hsucc]
      rfl
  | succ k ih =>
      intro a n hn hfail hsucc
      obtain ⟨m, rfl⟩ := Nat.exists_eq_succ_of_ne_zero
        (Nat.pos_iff_ne_zero.mp (Nat.lt_of_le_of_lt (Nat.zero_le _) hn))
      obtain ⟨e, hfe, hre⟩ := hfail 0 (Nat.succ_pos k)
      rw [Nat.add_zero] at hfe
      have hkm : k < m := by omega
      obtain ⟨m₂, rfl⟩ := Nat.exists_eq_succ_of_ne_zero
        (Nat.pos_iff_ne_zero.mp (Nat.lt_of_le_of_lt (Nat.zero_le _) hkm))
      have hih := ih (a + 1) (m₂ + 1) hkm
        (fun i hi => by
          obtain ⟨e₂, hfe₂, hre₂⟩ := hfail (i + 1) (Nat.succ_lt_succ hi)
          exact ⟨e₂, by rw [← hfe₂]; congr 1; omega, hre₂⟩)
        (by rw [← hsucc]; congr 1; omega)
      rw [List.range'_succ, List.range'_succ]
      rw [List.range'_succ] at hih
      rw [retryLoop_cons_error cfg rand f a (a + 1) _ e hfe hre]
      rw [hih]
      rw [List.range_succ_eq_map]
      simp only [List.map_cons, List.map_map, Nat.add_zero]
      have harg : (fun i => (preDelay cfg (a + 1 + i), sleptDelay cfg rand (a + 1 + i))) =
          ((fun i => (preDelay cfg (a + i), sleptDelay cfg rand (a + i))) ∘ Nat.succ) := by
        funext i
        have h : a + 1 + i = a + (i + 1) := by omega
        simp [Function.comp, h]
      rw [harg]

/-- Claim C5: an operation wrapped by the retry policy that fails with
a retryable error exactly `k < max_retries` times and then succeeds
returns the successful result having slept exactly `k` times, the i-th
pre-jitter delay being `min(base_delay * exponential_base^i,
max_delay)` — a sequence that is non-decreasing (then capped) whenever
the base delay is non-negative and the exponential base is at least
one, as with the source's parameter values. -/
theorem C5_retry_success_after_k_failures {α : Type} (cfg : RetryCfg) (rand : ℕ → ℚ)
    (f : ℕ → Except DuoErr α) (k : ℕ) (v : α)
    (hk : k < cfg.max_retries)
    (hfail : ∀ i, i < k → ∃ e, f i = Except.error e ∧ retryable e = true)
    (hsucc : f k = Except.ok v) :
    exponential_backoff_retry cfg rand f =
      (Except.ok v,
       (List.range k).map (fun i => (preDelay cfg i, sleptDelay cfg rand i))) ∧
    ((List.range k).map (fun i => (preDelay cfg i, sleptDelay cfg rand i))).length = k ∧
    (∀ i : ℕ, preDelay cfg i =
      min (cfg.base_delay * cfg.exponential_base ^ i) cfg.max_delay) ∧
    (0 ≤ cfg.base_delay → 1 ≤ cfg.exponential_base →
      ∀ i j : ℕ, i ≤ j → preDelay cfg i ≤ preDelay cfg j) := by
  refine ⟨?_, by simp, fun i => rfl, ?_⟩
  · unfold exponential_backoff_retry
    rw [List.range_eq_range']
    have := retryLoop_ok cfg rand f v k 0 (cfg.max_retries + 1)
      (Nat.lt_succ_of_lt hk)
      (fun i hi => by simpa using hfail i hi)
      (by simpa using hsucc)
    simpa using this
  · intro hb he i j hij
    unfold preDelay
    refine min_le_min ?_ le_rfl
    exact mul_le_mul_of_nonneg_left (pow_le_pow_right₀ he hij) hb

theorem retryLoop_single_error {α : Type} (cfg : RetryCfg) (rand : ℕ → ℚ)
    (f : ℕ → Except DuoErr α) (a : ℕ) (e : DuoErr)
    (hfe : f a = Except.error e) (hre : retryable e = true) :
    retryLoop cfg rand f [a] = (Except.error e, []) := by
  conv_lhs => unfold retryLoop
  rw [hfe]
  simp [hre]

theorem retryLoop_cons_fatal {α : Type} (cfg : RetryCfg) (rand : ℕ → ℚ)
    (f : ℕ → Except DuoErr α) (a : ℕ) (rest : List ℕ) (e : DuoErr)
    (hfe : f a = Except.error e) (hre : retryable e = false) :
    retryLoop cfg rand f (a :: rest) = (Except.error e, []) := by
  conv_lhs => unfold retryLoop
  rw [hfe]
  simp [hre]

/-- Fixture configuration for the retry witnesses: the source defaults. -/
def retryCfgW : RetryCfg := {}

/-- Fixture jitter draws. -/
def retryRandW : ℕ → ℚ := fun _ => 1 / 2

/-- Fixture operation: two retryable rate-limit failures, then success. -/
def retryFW : ℕ → Except DuoErr ℕ :=
  fun i => if i < 2 then Except.error DuoErr.rateLimit else Except.ok 7

/-- Witness for C5: two rate-limit failures then success under the
default configuration. -/
theorem C5_witness :
    2 < retryCfgW.max_retries ∧
    (exponential_backoff_retry retryCfgW retryRandW retryFW =
      (Except.ok 7,
       (List.range 2).map (fun i => (preDelay retryCfgW i, sleptDelay retryCfgW retryRandW i))) ∧
     ((List.range 2).map
        (fun i => (preDelay retryCfgW i, sleptDelay retryCfgW retryRandW i))).length = 2 ∧
     (∀ i : ℕ, preDelay retryCfgW i =
       min (retryCfgW.base_delay * retryCfgW.exponential_base ^ i) retryCfgW.max_delay) ∧
     (0 ≤ retryCfgW.base_delay → 1 ≤ retryCfgW.exponential_base →
       ∀ i j : ℕ, i ≤ j → preDelay retryCfgW i ≤ preDelay retryCfgW j)) :=
  ⟨by decide,
   C5_retry_success_after_k_failures retryCfgW retryRandW retryFW 2 7 (by decide)
     (fun i hi => ⟨DuoErr.rateLimit, by simp [retryFW, hi], rfl⟩)
     (by simp [retryFW])⟩

/-- Claim C6, evaluated at the failing input (code bug): a transport
timeout or connection error during `_make_request` is wrapped into a
plain `DuoAPIError` by the inner except clauses, which the retry
decorator does not catch, so it propagates to the caller after a
single attempt with zero sleeps — although the decorator itself
classifies raw `Timeout` / `ConnectionError` as retryable and a server
error on the same call is retried three times with backoff before
propagating. -/
theorem C6_network_failure_not_retried :
    make_request retryRandW (fun _ => HttpOutcome.timeout) =
      (Except.error DuoErr.apiError, []) ∧
    make_request retryRandW (fun _ => HttpOutcome.connError) =
      (Except.error DuoErr.apiError, []) ∧
    make_request retryRandW (fun _ => HttpOutcome.resp 500 true) =
      (Except.error DuoErr.serverError, [(1, 1), (2, 2), (4, 4)]) ∧
    retryable DuoErr.timeout = true ∧
    retryable DuoErr.connectionError = true ∧
    retryable DuoErr.apiError = false ∧
    exponential_backoff_retry { max_retries := 3 } retryRandW
      (fun _ => (Except.error DuoErr.timeout : Except DuoErr Unit)) =
      (Except.error DuoErr.timeout, [(1, 1), (2, 2), (4, 4)]) := by
  have hrange : List.range (3 + 1) = [0, 1, 2, 3] := rfl
  refine ⟨?_, ?_, ?_, rfl, rfl, rfl, ?_⟩
  · unfold make_request exponential_backoff_retry
    rw [hrange,
      retryLoop_cons_fatal _ retryRandW _ 0 [1, 2, 3] DuoErr.apiError rfl rfl]
  · unfold make_request exponential_backoff_retry
    rw [hrange,
      retryLoop_cons_fatal _ retryRandW _ 0 [1, 2, 3] DuoErr.apiError rfl rfl]
  · unfold make_request exponential_backoff_retry
    rw [hrange,
      retryLoop_cons_error _ retryRandW _ 0 1 [2, 3] DuoErr.serverError rfl rfl,
      retryLoop_cons_error _ retryRandW _ 1 2 [3] DuoErr.serverError rfl rfl,
      retryLoop_cons_error _ retryRandW _ 2 3 [] DuoErr.serverError rfl rfl,
      retryLoop_single_error _ retryRandW _ 3 DuoErr.serverError rfl rfl]
    norm_num [preDelay, sleptDelay, retryRandW, min_def]
  · unfold exponential_backoff_retry
    rw [hrange,
      retryLoop_cons_error _ retryRandW _ 0 1 [2, 3] DuoErr.timeout rfl rfl,
      retryLoop_cons_error _ retryRandW _ 1 2 [3] DuoErr.timeout rfl rfl,
      retryLoop_cons_error _ retryRandW _ 2 3 [] DuoErr.timeout rfl rfl,
      retryLoop_single_error _ retryRandW _ 3 DuoErr.timeout rfl rfl]
    norm_num [preDelay, sleptDelay, retryRandW, min_def]

/-- Test environment for the dashboard endpoint. -/
def denvW : DuoDashboard.DashEnv :=
  { lookup := fun u => if u = "123456" then some plainRecW else none
    updateOk := fun _ _ => true }

/-- Claim C7: a status-update request whose status value lies outside
the valid set is rejected by the status-update operation before any
remote call: the handler returns a 400-class error response and its
remote-call trace is empty (neither the user lookup nor the update
POST is issued). -/
theorem C7_invalid_status_rejected (env : DuoDashboard.DashEnv)
    (req : DuoDashboard.BypassReq) (s : String)
    (hs : req.status = some s)
    (hinv : ¬ s ∈ DuoDashboard.valid_statuses) :
    (DuoDashboard.api_update_user_bypass env req).2 = [] ∧
    ((DuoDashboard.api_update_user_bypass env req).1 =
        DuoDashboard.BypassResp.missingFields ∨
     (DuoDashboard.api_update_user_bypass env req).1 =
        DuoDashboard.BypassResp.invalidStatus) := by
  unfold DuoDashboard.api_update_user_bypass
  by_cases hmiss : !truthy req.username || !truthy req.status
  · simp [hmiss]
  · have hst : req.status.getD "" = s := by rw [hs]; rfl
    simp [hmiss, hst, hinv]

/-- Witness for C7: the misspelled status value is refused with no
remote call issued. -/
theorem C7_witness :
    ({ username := some "123456", status := some "Bypassed" } :
        DuoDashboard.BypassReq).status = some "Bypassed" ∧
    ¬ "Bypassed" ∈ DuoDashboard.valid_statuses ∧
    ((DuoDashboard.api_update_user_bypass denvW
        { username := some "123456", status := some "Bypassed" }).2 = [] ∧
     ((DuoDashboard.api_update_user_bypass denvW
         { username := some "123456", status := some "Bypassed" }).1 =
        DuoDashboard.BypassResp.missingFields ∨
      (DuoDashboard.api_update_user_bypass denvW
         { username := some "123456", status := some "Bypassed" }).1 =
        DuoDashboard.BypassResp.invalidStatus)) :=
  ⟨rfl, by decide,
   C7_invalid_status_rejected denvW
     { username := some "123456", status := some "Bypassed" } "Bypassed" rfl (by decide)⟩

/-- Witness for C3 (amended), at a concrete managed record. -/
theorem C3_witness :
    (is_directory_managed (some managedRecW) = Except.ok true ↔
      ((∃ s, managedRecW.directory_key = some s ∧ s ≠ "") ∨
       (∃ s, managedRecW.external_id = some s ∧ s ≠ "") ∨
       (∃ s, managedRecW.last_directory_sync = some s ∧ s ≠ ""))) ∧
    (managedMarkers managedRecW = false →
      is_directory_managed (some managedRecW) = Except.ok false) ∧
    is_directory_managed none = Except.error PyError.attributeError :=
  C3_managed_iff_marker managedRecW

open DuoSign

theorem eq_of_append_nl : ∀ {x y r s : List Char},
    '\n' ∉ x → '\n' ∉ y → x ++ '\n' :: r = y ++ '\n' :: s → x = y := by
  intro x
  induction x with
  | nil =>
      intro y r s _ hy h
      cases y with
      | nil => rfl
      | cons d ys =>
          exfalso
          apply hy
          rw [← (List.cons.injEq _ _ _ _).mp h |>.1]
          exact List.mem_cons_self '\n' ys
  | cons c xs ih =>
      intro y r s hx hy h
      cases y with
      | nil =>
          exfalso
          apply hx
          rw [(List.cons.injEq _ _ _ _).mp h |>.1]
          exact List.mem_cons_self '\n' xs
      | cons d ys =>
          obtain ⟨hcd, htail⟩ := (List.cons.injEq _ _ _ _).mp h
          rw [hcd, ih (fun hm => hx (List.mem_cons_of_mem c hm))
            (fun hm => hy (List.mem_cons_of_mem d hm)) htail]

theorem canon_string_eq (date m h p : List Char) (ps : List (List Char × List Char)) :
    canon_string date m h p ps =
      date ++ '\n' :: (pyUpper m ++ '\n' :: (pyLower h ++ '\n' ::
        (p ++ '\n' :: paramsLine m ps))) := rfl

theorem canon_ne_of_method (date h p : List Char) (ps : List (List Char × List Char))
    (m₁ m₂ : List Char)
    (hnl₁ : '\n' ∉ pyUpper m₁) (hnl₂ : '\n' ∉ pyUpper m₂)
    (hne : pyUpper m₁ ≠ pyUpper m₂) :
    canon_string date m₁ h p ps ≠ canon_string date m₂ h p ps := by
  intro he
  rw [canon_string_eq, canon_string_eq] at he
  have h1 := List.append_cancel_left he
  have h2 := ((List.cons.injEq _ _ _ _).mp h1).2
  exact hne (eq_of_append_nl hnl₁ hnl₂ h2)

theorem canon_ne_of_host (date m p : List Char) (ps : List (List Char × List Char))
    (h₁ h₂ : List Char) (hne : pyLower h₁ ≠ pyLower h₂) :
    canon_string date m h₁ p ps ≠ canon_string date m h₂ p ps := by
  intro he
  rw [canon_string_eq, canon_string_eq] at he
  have e1 := ((List.cons.injEq _ _ _ _).mp (List.append_cancel_left he)).2
  have e2 := ((List.cons.injEq _ _ _ _).mp (List.append_cancel_left e1)).2
  exact hne (List.append_cancel_right e2)

theorem canon_ne_of_path (date m h : List Char) (ps : List (List Char × List Char))
    (p₁ p₂ : List Char) (hne : p₁ ≠ p₂) :
    canon_string date m h p₁ ps ≠ canon_string date m h p₂ ps := by
  intro he
  rw [canon_string_eq, canon_string_eq] at he
  have e1 := ((List.cons.injEq _ _ _ _).mp (List.append_cancel_left he)).2
  have e2 := ((List.cons.injEq _ _ _ _).mp (List.append_cancel_left e1)).2
  have e3 := ((List.cons.injEq _ _ _ _).mp (List.append_cancel_left e2)).2
  exact hne (List.append_cancel_right e3)

theorem hexDigit_inj : ∀ m, m < 16 → ∀ n, n < 16 → hexDigit m = hexDigit n → m = n := by
  decide

theorem safe_ne_percent {c : Char} (h : isSafeChar c = true) : c ≠ '%' := by
  intro he
  subst he
  exact absurd h (by decide)

theorem safe_ne_plus {c : Char} (h : isSafeChar c = true) : c ≠ '+' := by
  intro he
  subst he
  exact absurd h (by decide)

theorem encodeChar_ne_nil (c : Char) : encodeChar c ≠ [] := by
  unfold encodeChar
  split
  · simp
  · split <;> simp

theorem char_eq_of_toNat_eq {a b : Char} (h : a.toNat = b.toNat) : a = b := by
  have := congrArg Char.ofNat h
  rwa [Char.ofNat_toNat, Char.ofNat_toNat] at this

theorem quotePlus_cons (c : Char) (s : List Char) :
    quotePlus (c :: s) = encodeChar c ++ quotePlus s := rfl

theorem quotePlus_inj : ∀ (s t : List Char),
    (∀ c ∈ s, c.toNat < 128) → (∀ c ∈ t, c.toNat < 128) →
    quotePlus s = quotePlus t → s = t := by
  intro s
  induction s with
  | nil =>
      intro t _ _ h
      cases t with
      | nil => rfl
      | cons d ts =>
          rw [quotePlus_cons] at h
          exact absurd (List.append_eq_nil.mp h.symm).1 (encodeChar_ne_nil d)
  | cons c ss ih =>
      intro t hs ht h
      cases t with
      | nil =>
          rw [quotePlus_cons] at h
          exact absurd (List.append_eq_nil.mp h).1 (encodeChar_ne_nil c)
      | cons d ts =>
          rw [quotePlus_cons, quotePlus_cons] at h
          have hc : c.toNat < 128 := hs c (List.mem_cons_self c ss)
          have hd : d.toNat < 128 := ht d (List.mem_cons_self d ts)
          have hss : ∀ a ∈ ss, a.toNat < 128 := fun a ha => hs a (List.mem_cons_of_mem c ha)
          have hts : ∀ a ∈ ts, a.toNat < 128 := fun a ha => ht a (List.mem_cons_of_mem d ha)
          unfold encodeChar at h
          by_cases hc1 : isSafeChar c = true <;> by_cases hd1 : isSafeChar d = true
          · rw [if_pos hc1, if_pos hd1] at h
            obtain ⟨hcd, htl⟩ := (List.cons.injEq _ _ _ _).mp h
            rw [hcd, ih ts hss hts htl]
          · rw [if_pos hc1, if_neg hd1] at h
            by_cases hd2 : (d == ' ') = true
            · rw [if_pos hd2] at h
              exact absurd ((List.cons.injEq _ _ _ _).mp h).1 (safe_ne_plus hc1)
            · rw [if_neg hd2] at h
              exact absurd ((List.cons.injEq _ _ _ _).mp h).1 (safe_ne_percent hc1)
          · rw [if_neg hc1, if_pos hd1] at h
            by_cases hc2 : (c == ' ') = true
            · rw [if_pos hc2] at h
              exact absurd ((List.cons.injEq _ _ _ _).mp h).1.symm (safe_ne_plus hd1)
            · rw [if_neg hc2] at h
              exact absurd ((List.cons.injEq _ _ _ _).mp h).1.symm (safe_ne_percent hd1)
          · rw [if_neg hc1, if_neg hd1] at h
            by_cases hc2 : (c == ' ') = true <;> by_cases hd2 : (d == ' ') = true
            · rw [if_pos hc2, if_pos hd2] at h
              have htl := ((List.cons.injEq _ _ _ _).mp h).2
              rw [eq_of_beq hc2, eq_of_beq hd2, ih ts hss hts htl]
            · rw [if_pos hc2, if_neg hd2] at h
              exact absurd ((List.cons.injEq _ _ _ _).mp h).1 (by decide)
            · rw [if_neg hc2, if_pos hd2] at h
              exact absurd ((List.cons.injEq _ _ _ _).mp h).1 (by decide)
            · rw [if_neg hc2, if_neg hd2] at h
              obtain ⟨_, h2⟩ := (List.cons.injEq _ _ _ _).mp h
              obtain ⟨hhi, h3⟩ := (List.cons.injEq _ _ _ _).mp h2
              obtain ⟨hlo, htl⟩ := (List.cons.injEq _ _ _ _).mp h3
              have ehi := hexDigit_inj _ (Nat.mod_lt _ (by norm_num)) _
                (Nat.mod_lt _ (by norm_num)) hhi
              have elo := hexDigit_inj _ (Nat.mod_lt _ (by norm_num)) _
                (Nat.mod_lt _ (by norm_num)) hlo
              have hcdiv : c.toNat / 16 < 16 := by omega
              have hddiv : d.toNat / 16 < 16 := by omega
              rw [Nat.mod_eq_of_lt hcdiv, Nat.mod_eq_of_lt hddiv] at ehi
              have : c.toNat = d.toNat := by omega
              rw [char_eq_of_toNat_eq this, ih ts hss hts htl]

theorem joinAmp_cons_ne (x : List Char) (l : List (List Char)) (hl : l ≠ []) :
    joinAmp (x :: l) = x ++ '&' :: joinAmp l := by
  cases l with
  | nil => exact absurd rfl hl
  | cons y ys => rfl

theorem joinAmp_mid_inj : ∀ (A : List (List Char)) (x y : List Char)
    (B : List (List Char)),
    joinAmp (A ++ x :: B) = joinAmp (A ++ y :: B) → x = y := by
  intro A
  induction A with
  | nil =>
      intro x y B h
      cases B with
      | nil => exact h
      | cons b bs =>
          rw [List.nil_append, List.nil_append,
            joinAmp_cons_ne x (b :: bs) (by simp),
            joinAmp_cons_ne y (b :: bs) (by simp)] at h
          exact List.append_cancel_right h
  | cons a A2 ih =>
      intro x y B h
      rw [List.cons_append, List.cons_append,
        joinAmp_cons_ne a (A2 ++ x :: B) (by simp),
        joinAmp_cons_ne a (A2 ++ y :: B) (by simp)] at h
      exact ih x y B (((List.cons.injEq _ _ _ _).mp (List.append_cancel_left h)).2)

theorem sortPairs_of_sorted : ∀ l : List (List Char × List Char),
    pairsSortedLe l = true → sortPairs l = l := by
  intro l
  induction l with
  | nil => intro _; rfl
  | cons x xs ih =>
      intro h
      cases xs with
      | nil => rfl
      | cons y ys =>
          have hxy : pairLe x y = true := by
            have := (Bool.and_eq_true _ _).mp h
            exact this.1
          have htail : pairsSortedLe (y :: ys) = true := by
            have := (Bool.and_eq_true _ _).mp h
            exact this.2
          show insertLe x (sortPairs (y :: ys)) = x :: y :: ys
          rw [ih htail]
          show (if pairLe x y then x :: y :: ys else y :: insertLe x ys) = x :: y :: ys
          rw [if_pos hxy]

theorem paramsLine_signed (m : List Char) (ps : List (List Char × List Char))
    (hm : pyUpper m = ['G', 'E', 'T'] ∨ pyUpper m = ['D', 'E', 'L', 'E', 'T', 'E'])
    (hps : ps ≠ []) :
    paramsLine m ps = urlencodePairs (sortPairs ps) := by
  unfold paramsLine
  cases ps with
  | nil => exact absurd rfl hps
  | cons a l =>
      rcases hm with hm | hm <;> simp [hm]

theorem canon_ne_of_param (date m host p : List Char)
    (before after : List (List Char × List Char)) (k v v₂ : List Char)
    (hm : pyUpper m = ['G', 'E', 'T'] ∨ pyUpper m = ['D', 'E', 'L', 'E', 'T', 'E'])
    (hs₁ : pairsSortedLe (before ++ (k, v) :: after) = true)
    (hs₂ : pairsSortedLe (before ++ (k, v₂) :: after) = true)
    (hva : ∀ c ∈ v, c.toNat < 128) (hvb : ∀ c ∈ v₂, c.toNat < 128)
    (hne : v ≠ v₂) :
    canon_string date m host p (before ++ (k, v) :: after) ≠
      canon_string date m host p (before ++ (k, v₂) :: after) := by
  intro he
  rw [canon_string_eq, canon_string_eq] at he
  have e1 := ((List.cons.injEq _ _ _ _).mp (List.append_cancel_left he)).2
  have e2 := ((List.cons.injEq _ _ _ _).mp (List.append_cancel_left e1)).2
  have e3 := ((List.cons.injEq _ _ _ _).mp (List.append_cancel_left e2)).2
  have e4 := ((List.cons.injEq _ _ _ _).mp (List.append_cancel_left e3)).2
  rw [paramsLine_signed m _ hm (by simp), paramsLine_signed m _ hm (by simp),
    sortPairs_of_sorted _ hs₁, sortPairs_of_sorted _ hs₂] at e4
  unfold urlencodePairs at e4
  rw [List.map_append, List.map_append, List.map_cons, List.map_cons] at e4
  have e5 := joinAmp_mid_inj _ _ _ _ e4
  have e6 := ((List.cons.injEq _ _ _ _).mp (List.append_cancel_left e5)).2
  exact hne (quotePlus_inj v v₂ hva hvb e6)

/-- Counterexample to claim C4 as stated: changing the method `GET` to
`gET` — a one-character change — leaves the canonical string, and with
it the signature and every signed header, byte-identical, because the
signer uppercases the method (and lowercases the host) before signing.
The signature and the `Authorization`, `Date`, `Host`, `Content-Type`
headers are functions of the canonical string, the keys, the host and
the date alone, all of which coincide here. -/
theorem C4_counterexample :
    "gET".data = 'g' :: 'E' :: 'T' :: [] ∧
    "GET".data = 'G' :: 'E' :: 'T' :: [] ∧
    ('g' : Char) ≠ 'G' ∧
    canon_string "D".data "gET".data "api-test.duosecurity.com".data
        "/admin/v1/users".data [("username".data, "123456".data)] =
      canon_string "D".data "GET".data "api-test.duosecurity.com".data
        "/admin/v1/users".data [("username".data, "123456".data)] := by
  exact ⟨rfl, rfl, by decide, by decide⟩

/-- Claim C4 (amended): with a fixed timestamp the signer is a pure
function of its inputs, so repeated invocations produce byte-identical
`Date`, `Authorization`, `Host` and `Content-Type` headers; and a
change to the method that survives uppercasing, any change to the
lowercased host, any change to the path, and any change to a single
signed parameter's value (for GET/DELETE requests, with the parameter
list key-sorted and the values ASCII) each change the canonical string
over which the HMAC-SHA1 signature is computed — hence the signature,
short of an HMAC collision.  Case-only changes to method or host leave
the canonical string and the signature unchanged. -/
theorem C4_amended_signing :
    (∀ (hmacF : List Char → List Char → List Char) (b64F : List Char → List Char)
       (ikey skey host date m p : List Char) (ps : List (List Char × List Char)),
       sign_request hmacF b64F ikey skey host date m p ps =
         sign_request hmacF b64F ikey skey host date m p ps) ∧
    (∀ (date h p : List Char) (ps : List (List Char × List Char)) (m₁ m₂ : List Char),
       '\n' ∉ pyUpper m₁ → '\n' ∉ pyUpper m₂ → pyUpper m₁ ≠ pyUpper m₂ →
       canon_string date m₁ h p ps ≠ canon_string date m₂ h p ps) ∧
    (∀ (date m p : List Char) (ps : List (List Char × List Char)) (h₁ h₂ : List Char),
       pyLower h₁ ≠ pyLower h₂ →
       canon_string date m h₁ p ps ≠ canon_string date m h₂ p ps) ∧
    (∀ (date m h : List Char) (ps : List (List Char × List Char)) (p₁ p₂ : List Char),
       p₁ ≠ p₂ → canon_string date m h p₁ ps ≠ canon_string date m h p₂ ps) ∧
    (∀ (date m host p : List Char) (before after : List (List Char × List Char))
       (k v v₂ : List Char),
       pyUpper m = ['G', 'E', 'T'] ∨ pyUpper m = ['D', 'E', 'L', 'E', 'T', 'E'] →
       pairsSortedLe (before ++ (k, v) :: after) = true →
       pairsSortedLe (before ++ (k, v₂) :: after) = true →
       (∀ c ∈ v, c.toNat < 128) → (∀ c ∈ v₂, c.toNat < 128) → v ≠ v₂ →
       canon_string date m host p (before ++ (k, v) :: after) ≠
         canon_string date m host p (before ++ (k, v₂) :: after)) :=
  ⟨fun _ _ _ _ _ _ _ _ _ => rfl,
   fun date h p ps m₁ m₂ => canon_ne_of_method date h p ps m₁ m₂,
   fun date m p ps h₁ h₂ => canon_ne_of_host date m p ps h₁ h₂,
   fun date m h ps p₁ p₂ => canon_ne_of_path date m h ps p₁ p₂,
   fun date m host p before after k v v₂ =>
     canon_ne_of_param date m host p before after k v v₂⟩

/-- Witness for C4 (amended): each discriminating part applied at
concrete inputs, with the hypotheses discharged by evaluation. -/
theorem C4_witness :
    (sign_request (fun key msg => key ++ msg) (fun x => x) "ik".data "sk".data
        "h.com".data "D".data "get".data "/admin/v1/users".data
        [("username".data, "123456".data)] =
      sign_request (fun key msg => key ++ msg) (fun x => x) "ik".data "sk".data
        "h.com".data "D".data "get".data "/admin/v1/users".data
        [("username".data, "123456".data)]) ∧
    canon_string "D".data "get".data "h.com".data "/p".data [] ≠
      canon_string "D".data "put".data "h.com".data "/p".data [] ∧
    canon_string "D".data "get".data "a.com".data "/p".data [] ≠
      canon_string "D".data "get".data "b.com".data "/p".data [] ∧
    canon_string "D".data "get".data "h.com".data "/p1".data [] ≠
      canon_string "D".data "get".data "h.com".data "/p2".data [] ∧
    canon_string "D".data "get".data "h.com".data "/p".data
        ([] ++ ("username".data, "123456".data) :: []) ≠
      canon_string "D".data "get".data "h.com".data "/p".data
        ([] ++ ("username".data, "123457".data) :: []) :=
  ⟨C4_amended_signing.1 (fun key msg => key ++ msg) (fun x => x) "ik".data "sk".data
     "h.com".data "D".data "get".data "/admin/v1/users".data
     [("username".data, "123456".data)],
   C4_amended_signing.2.1 "D".data "h.com".data "/p".data [] "get".data "put".data
     (by decide) (by decide) (by decide),
   C4_amended_signing.2.2.1 "D".data "get".data "/p".data [] "a.com".data "b.com".data
     (by decide),
   C4_amended_signing.2.2.2.1 "D".data "get".data "h.com".data [] "/p1".data "/p2".data
     (by decide),
   C4_amended_signing.2.2.2.2 "D".data "get".data "h.com".data "/p".data [] []
     "username".data "123456".data "123457".data (Or.inl (by decide)) (by decide)
     (by decide) (by decide) (by decide) (by decide)⟩
